import Mathlib

/-!
Verification development for the apex-ml repository.

We shallowly embed the warehouse upsert engine (`src/snowflake/elt/load.py`),
the change-set resolver and orchestrator loops (`load_by_year.py`,
`load_new_data.py`, `load_historical.py`) and the analytics query builder
(`src/app/query_builder.py`), and prove the spec's testable properties over
those embeddings.

Warehouse tables are modelled as lists of row records; a Snowflake `MERGE`
keyed on a table's natural key is modelled as: if some row matches the
source row's key, update every matching row (the `WHEN MATCHED THEN UPDATE`
branch sets every non-key column from the source), otherwise append a new
row (`WHEN NOT MATCHED THEN INSERT`).  SQL values are an inductive `Val`
with an explicit NULL, and a Python record dict is an association list of
present keys (`dict.get` returns NULL for an absent key; pyformat binding
`%(name)s` fails on an absent key).
-/

set_option autoImplicit false

namespace ApexML

/-- A SQL-bindable Python value: `null` is Python `None` / SQL NULL. -/
inductive Val where
  | null : Val
  | i : Int → Val
  | s : String → Val
  | b : Bool → Val
  deriving DecidableEq, Repr

/-- A Python record dict: association list of the keys that are present.
A key mapped to `Val.null` is present-with-`None`; a key not in the list is
absent from the dict. -/
abbrev Dict := List (String × Val)

/-- `d.get(k)`: `None` (hence SQL NULL) when the key is absent. -/
def dget (d : Dict) (k : String) : Val :=
  match d.find? (fun kv => kv.1 = k) with
  | some kv => kv.2
  | none => Val.null

/-- pyformat binding `%(k)s`: fails (KeyError) when the key is absent. -/
def dfind (d : Dict) (k : String) : Option Val :=
  (d.find? (fun kv => kv.1 = k)).map (fun kv => kv.2)

section MergeCore

variable {ρ κ : Type} [DecidableEq κ]

/-- One `MERGE` statement for source row `r` against table `t`, keyed by
`key`; `upd old new` is the `WHEN MATCHED THEN UPDATE SET` result (it keeps
the target's key columns and overwrites every other column from the
source). -/
def mergeRow (key : ρ → κ) (upd : ρ → ρ → ρ) (t : List ρ) (r : ρ) : List ρ :=
  if key r ∈ t.map key then
    t.map (fun row => if key row = key r then upd row r else row)
  else
    t ++ [r]

/-- The per-table load loop: merge each source row in order. -/
def loadRows (key : ρ → κ) (upd : ρ → ρ → ρ) (t : List ρ) (rs : List ρ) : List ρ :=
  rs.foldl (mergeRow key upd) t

/-- The last row in `rs` whose key is `k`, if any. -/
def lastWith (key : ρ → κ) : List ρ → κ → Option ρ
  | [], _ => none
  | r :: rs, k =>
    match lastWith key rs k with
    | some r2 => some r2
    | none => if key r = k then some r else none

/-- Overwrite a row with the last same-keyed row of `rs`, if any. -/
def owLast (key : ρ → κ) (rs : List ρ) (row : ρ) : ρ :=
  (lastWith key rs (key row)).getD row

/-- The rows appended by loading `rs` into a table whose key multiset is
`tk`: one row per first occurrence of a fresh key, already overwritten by
the last same-keyed row. -/
def newRows (key : ρ → κ) : List κ → List ρ → List ρ
  | _, [] => []
  | tk, r :: rs =>
    if key r ∈ tk then newRows key tk rs
    else (lastWith key rs (key r)).getD r :: newRows key (key r :: tk) rs

variable (key : ρ → κ) (upd : ρ → ρ → ρ)

theorem lastWith_mem_key {rs : List ρ} {k : κ} {r : ρ}
    (h : lastWith key rs k = some r) : key r = k := by
  induction rs with
  | nil => simp [lastWith] at h
  | cons a rs ih =>
    simp only [lastWith] at h
    rcases hr : lastWith key rs k with _ | r2
    · rw [hr] at h
      by_cases ha : key a = k
      · simp [ha] at h; subst h; exact ha
      · simp [ha] at h
    · rw [hr] at h
      simp at h
      subst h
      exact ih hr

theorem lastWith_cons_ne {a : ρ} {rs : List ρ} {k : κ} (h : key a ≠ k) :
    lastWith key (a :: rs) k = lastWith key rs k := by
  simp only [lastWith]
  rcases lastWith key rs k with _ | r2 <;> simp [h]

theorem lastWith_cons_eq {a : ρ} {rs : List ρ} {k : κ} (h : key a = k) :
    lastWith key (a :: rs) k = some ((lastWith key rs k).getD a) := by
  simp only [lastWith]
  rcases lastWith key rs k with _ | r2 <;> simp [h]

theorem key_owLast (rs : List ρ) (row : ρ) :
    key (owLast key rs row) = key row := by
  unfold owLast
  rcases h : lastWith key rs (key row) with _ | r2
  · simp
  · simpa using lastWith_mem_key key h

theorem owLast_owLast (rs : List ρ) (row : ρ) :
    owLast key rs (owLast key rs row) = owLast key rs row := by
  rcases h : lastWith key rs (key row) with _ | r2
  · have hrow : owLast key rs row = row := by simp [owLast, h]
    rw [hrow]
    exact hrow
  · have hrow : owLast key rs row = r2 := by simp [owLast, h]
    rw [hrow]
    have hk2 : key r2 = key row := lastWith_mem_key key h
    simp [owLast, hk2, h]

theorem newRows_congr (key : ρ → κ) :
    ∀ (rs : List ρ) (tk1 tk2 : List κ), (∀ x, x ∈ tk1 ↔ x ∈ tk2) →
      newRows key tk1 rs = newRows key tk2 rs := by
  intro rs
  induction rs with
  | nil => intro tk1 tk2 _; rfl
  | cons r rs ih =>
    intro tk1 tk2 hiff
    simp only [newRows]
    by_cases hmem : key r ∈ tk1
    · rw [if_pos hmem, if_pos ((hiff (key r)).mp hmem), ih tk1 tk2 hiff]
    · rw [if_neg hmem, if_neg (fun h => hmem ((hiff (key r)).mpr h))]
      have : ∀ x, x ∈ key r :: tk1 ↔ x ∈ key r :: tk2 := by
        intro x; simp [hiff x]
      rw [ih _ _ this]

theorem key_getD_lastWith (key : ρ → κ) (rs : List ρ) (r : ρ) :
    key ((lastWith key rs (key r)).getD r) = key r := by
  rcases h : lastWith key rs (key r) with _ | r2
  · simp
  · simpa using lastWith_mem_key key h

theorem loadRows_char (key : ρ → κ) (upd : ρ → ρ → ρ)
    (H : ∀ row r, key row = key r → upd row r = r) :
    ∀ (rs : List ρ) (t : List ρ),
      loadRows key upd t rs = t.map (owLast key rs) ++ newRows key (t.map key) rs := by
  intro rs
  induction rs with
  | nil =>
    intro t
    simp only [loadRows, List.foldl_nil, newRows, List.append_nil]
    have : ∀ row ∈ t, owLast key [] row = row := by
      intro row _; simp [owLast, lastWith]
    rw [List.map_congr_left this, List.map_id']
  | cons r rs ih =>
    intro t
    have hstep : loadRows key upd t (r :: rs) = loadRows key upd (mergeRow key upd t r) rs := by
      simp [loadRows]
    rw [hstep]
    by_cases hmem : key r ∈ t.map key
    · have hmerge : mergeRow key upd t r =
          t.map (fun row => if key row = key r then r else row) := by
        unfold mergeRow
        rw [if_pos hmem]
        apply List.map_congr_left
        intro row _
        by_cases hk : key row = key r
        · simp [hk, H row r hk]
        · simp [hk]
      rw [hmerge, ih]
      have hkeys : (t.map (fun row => if key row = key r then r else row)).map key
          = t.map key := by
        rw [List.map_map]
        apply List.map_congr_left
        intro row _
        by_cases hk : key row = key r
        · simp [hk]
        · simp [hk]
      rw [hkeys]
      have hnew : newRows key (t.map key) (r :: rs) = newRows key (t.map key) rs := by
        simp only [newRows]; rw [if_pos hmem]
      rw [hnew]
      congr 1
      rw [List.map_map]
      apply List.map_congr_left
      intro row _
      by_cases hk : key row = key r
      · show owLast key rs (if key row = key r then r else row) = owLast key (r :: rs) row
        rw [if_pos hk]
        unfold owLast
        rw [hk, lastWith_cons_eq key rfl]
        simp only [Option.getD_some]
      · show owLast key rs (if key row = key r then r else row) = owLast key (r :: rs) row
        rw [if_neg hk]
        unfold owLast
        rw [lastWith_cons_ne key (fun h => hk h.symm)]
    · have hmerge : mergeRow key upd t r = t ++ [r] := by
        unfold mergeRow; rw [if_neg hmem]
      rw [hmerge, ih]
      have hnew : newRows key (t.map key) (r :: rs)
          = (lastWith key rs (key r)).getD r :: newRows key (key r :: t.map key) rs := by
        simp only [newRows]; rw [if_neg hmem]
      rw [hnew]
      have hmap : t.map (owLast key rs) = t.map (owLast key (r :: rs)) := by
        apply List.map_congr_left
        intro row hrow
        have hk : key row ≠ key r := by
          intro h
          exact hmem (h ▸ List.mem_map_of_mem key hrow)
        unfold owLast
        rw [lastWith_cons_ne key (fun h => hk h.symm)]
      have hnewtk : newRows key ((t ++ [r]).map key) rs
          = newRows key (key r :: t.map key) rs := by
        apply newRows_congr
        intro x
        simp [List.mem_append, or_comm]
      rw [List.map_append, hnewtk]
      simp only [List.map_cons, List.map_nil, hmap]
      rw [List.append_assoc]
      rfl

theorem newRows_key_not_mem (key : ρ → κ) :
    ∀ (rs : List ρ) (tk : List κ) (b : ρ), b ∈ newRows key tk rs → key b ∉ tk := by
  intro rs
  induction rs with
  | nil => intro tk b hb; simp [newRows] at hb
  | cons r rs ih =>
    intro tk b hb
    simp only [newRows] at hb
    by_cases hmem : key r ∈ tk
    · rw [if_pos hmem] at hb
      exact ih tk b hb
    · rw [if_neg hmem] at hb
      rcases List.mem_cons.mp hb with hb | hb
      · subst hb
        rw [key_getD_lastWith key rs r]
        exact hmem
      · intro hin
        exact ih (key r :: tk) b hb (List.mem_cons_of_mem _ hin)

theorem newRows_fixpoint (key : ρ → κ) :
    ∀ (rs : List ρ) (tk : List κ) (b : ρ), b ∈ newRows key tk rs →
      owLast key rs b = b := by
  intro rs
  induction rs with
  | nil => intro tk b hb; simp [newRows] at hb
  | cons r rs ih =>
    intro tk b hb
    simp only [newRows] at hb
    by_cases hmem : key r ∈ tk
    · rw [if_pos hmem] at hb
      have hkb : key b ∉ tk := newRows_key_not_mem key rs tk b hb
      have hk : key b ≠ key r := fun h => hkb (h ▸ hmem)
      unfold owLast
      rw [lastWith_cons_ne key (fun h => hk h.symm)]
      exact ih tk b hb
    · rw [if_neg hmem] at hb
      rcases List.mem_cons.mp hb with hb | hb
      · subst hb
        unfold owLast
        rw [key_getD_lastWith key rs r, lastWith_cons_eq key rfl]
        simp
      · have hkb : key b ∉ key r :: tk := newRows_key_not_mem key rs _ b hb
        have hk : key b ≠ key r := fun h => hkb (h ▸ List.mem_cons_self _ _)
        unfold owLast
        rw [lastWith_cons_ne key (fun h => hk h.symm)]
        exact ih _ b hb

theorem newRows_nil_of_subset (key : ρ → κ) :
    ∀ (rs : List ρ) (tk : List κ), (∀ r ∈ rs, key r ∈ tk) →
      newRows key tk rs = [] := by
  intro rs
  induction rs with
  | nil => intro tk _; rfl
  | cons r rs ih =>
    intro tk h
    simp only [newRows]
    rw [if_pos (h r (List.mem_cons_self _ _))]
    exact ih tk (fun x hx => h x (List.mem_cons_of_mem _ hx))

theorem mem_keys_newRows (key : ρ → κ) :
    ∀ (rs : List ρ) (tk : List κ) (k : κ), k ∈ rs.map key → k ∉ tk →
      k ∈ (newRows key tk rs).map key := by
  intro rs
  induction rs with
  | nil => intro tk k hk _; simp at hk
  | cons r rs ih =>
    intro tk k hk hnk
    simp only [newRows]
    simp only [List.map_cons, List.mem_cons] at hk
    by_cases hmem : key r ∈ tk
    · rw [if_pos hmem]
      rcases hk with hk | hk
      · exact absurd (hk.symm ▸ hmem) hnk
      · exact ih tk k hk hnk
    · rw [if_neg hmem]
      by_cases hkr : k = key r
      · subst hkr
        simp only [List.map_cons, List.mem_cons]
        exact Or.inl (key_getD_lastWith key rs r).symm
      · rcases hk with hk | hk
        · exact absurd hk hkr
        · have hx : k ∉ key r :: tk := by
            intro hin
            rcases List.mem_cons.mp hin with h | h
            · exact hkr h
            · exact hnk h
          have hmem2 := ih (key r :: tk) k hk hx
          simp only [List.map_cons]
          exact List.mem_cons_of_mem _ hmem2

theorem map_key_owLast (key : ρ → κ) (rs t : List ρ) :
    (t.map (owLast key rs)).map key = t.map key := by
  rw [List.map_map]
  apply List.map_congr_left
  intro row _
  exact key_owLast key rs row

theorem mem_keys_loadRows (key : ρ → κ) (upd : ρ → ρ → ρ)
    (H : ∀ row r, key row = key r → upd row r = r) (t rs : List ρ) :
    ∀ r ∈ rs, key r ∈ (loadRows key upd t rs).map key := by
  intro r hr
  rw [loadRows_char key upd H, List.map_append]
  by_cases h : key r ∈ t.map key
  · rw [map_key_owLast]
    exact List.mem_append_left _ h
  · exact List.mem_append_right _
      (mem_keys_newRows key rs (t.map key) (key r) (List.mem_map_of_mem key hr) h)

theorem loadRows_fix (key : ρ → κ) (upd : ρ → ρ → ρ)
    (H : ∀ row r, key row = key r → upd row r = r) (t rs : List ρ) :
    ∀ row ∈ loadRows key upd t rs, owLast key rs row = row := by
  rw [loadRows_char key upd H]
  intro row hrow
  rcases List.mem_append.mp hrow with h | h
  · rcases List.mem_map.mp h with ⟨row0, _, hrow0⟩
    rw [← hrow0]
    exact owLast_owLast key rs row0
  · exact newRows_fixpoint key rs _ row h

/-- Running the per-table merge loop a second time with the same source rows
changes nothing. -/
theorem loadRows_idem (key : ρ → κ) (upd : ρ → ρ → ρ)
    (H : ∀ row r, key row = key r → upd row r = r) (t rs : List ρ) :
    loadRows key upd (loadRows key upd t rs) rs = loadRows key upd t rs := by
  conv_lhs => rw [loadRows_char key upd H]
  have h1 : (loadRows key upd t rs).map (owLast key rs) = loadRows key upd t rs := by
    rw [List.map_congr_left (loadRows_fix key upd H t rs), List.map_id']
  have h2 : newRows key ((loadRows key upd t rs).map key) rs = [] :=
    newRows_nil_of_subset key rs _ (fun r hr => mem_keys_loadRows key upd H t rs r hr)
  rw [h1, h2, List.append_nil]

theorem newRows_filter (key : ρ → κ) :
    ∀ (rs : List ρ) (tk : List κ) (k : κ), k ∉ tk →
      (newRows key tk rs).filter (fun row => decide (key row = k))
        = (lastWith key rs k).toList := by
  intro rs
  induction rs with
  | nil => intro tk k _; simp [newRows, lastWith]
  | cons r rs ih =>
    intro tk k hnk
    simp only [newRows]
    by_cases hmem : key r ∈ tk
    · rw [if_pos hmem]
      have hkr : key r ≠ k := fun h => hnk (h ▸ hmem)
      rw [lastWith_cons_ne key hkr]
      exact ih tk k hnk
    · rw [if_neg hmem]
      by_cases hkr : k = key r
      · subst hkr
        rw [lastWith_cons_eq key rfl]
        have he : key ((lastWith key rs (key r)).getD r) = key r :=
          key_getD_lastWith key rs r
        rw [List.filter_cons_of_pos (by simp [he])]
        have htail : (newRows key (key r :: tk) rs).filter
            (fun row => decide (key row = key r)) = [] := by
          rw [List.filter_eq_nil_iff]
          intro b hb
          have := newRows_key_not_mem key rs (key r :: tk) b hb
          simp only [decide_eq_true_eq]
          intro hkb
          exact this (hkb ▸ List.mem_cons_self _ _)
        rw [htail]
        simp
      · have he : key ((lastWith key rs (key r)).getD r) = key r :=
          key_getD_lastWith key rs r
        rw [List.filter_cons_of_neg (by simp [he]; exact fun h => hkr h.symm)]
        rw [lastWith_cons_ne key (fun h => hkr h.symm)]
        apply ih
        intro hin
        rcases List.mem_cons.mp hin with h | h
        · exact hkr h
        · exact hnk h

/-- Loading rows into an empty table leaves, for each key, exactly the last
source row carrying that key (and nothing for keys the source lacks). -/
theorem loadRows_nil_filter (key : ρ → κ) (upd : ρ → ρ → ρ)
    (H : ∀ row r, key row = key r → upd row r = r) (rs : List ρ) (k : κ) :
    (loadRows key upd [] rs).filter (fun row => decide (key row = k))
      = (lastWith key rs k).toList := by
  rw [loadRows_char key upd H]
  simp only [List.map_nil, List.nil_append]
  exact newRows_filter key rs [] k (by simp)

theorem mergeRow_keys_nodup (key : ρ → κ) (upd : ρ → ρ → ρ)
    (H : ∀ row r, key row = key r → upd row r = r) (t : List ρ) (r : ρ)
    (h : (t.map key).Nodup) : ((mergeRow key upd t r).map key).Nodup := by
  unfold mergeRow
  by_cases hmem : key r ∈ t.map key
  · rw [if_pos hmem]
    have heq : (t.map (fun row => if key row = key r then upd row r else row)).map key
        = t.map key := by
      rw [List.map_map]
      apply List.map_congr_left
      intro row _
      by_cases hk : key row = key r
      · simp [hk, H row r hk]
      · simp [hk]
    rw [heq]
    exact h
  · rw [if_neg hmem, List.map_append]
    refine List.Nodup.append h (List.nodup_singleton _) ?_
    intro a ha hb
    simp only [List.map_cons, List.map_nil, List.mem_singleton] at hb
    subst hb
    exact hmem ha

theorem loadRows_keys_nodup (key : ρ → κ) (upd : ρ → ρ → ρ)
    (H : ∀ row r, key row = key r → upd row r = r) :
    ∀ (rs t : List ρ), (t.map key).Nodup → ((loadRows key upd t rs).map key).Nodup := by
  intro rs
  induction rs with
  | nil => intro t h; exact h
  | cons r rs ih =>
    intro t h
    have hstep : loadRows key upd t (r :: rs) = loadRows key upd (mergeRow key upd t r) rs := by
      simp [loadRows]
    rw [hstep]
    exact ih _ (mergeRow_keys_nodup key upd H t r h)

/-- Iterating the whole-table load `n ≥ 1` times equals loading once. -/
theorem loadRows_iterate (key : ρ → κ) (upd : ρ → ρ → ρ)
    (H : ∀ row r, key row = key r → upd row r = r) (rs : List ρ) :
    ∀ n, 1 ≤ n → ∀ t, (fun t => loadRows key upd t rs)^[n] t = loadRows key upd t rs := by
  intro n
  induction n with
  | zero => intro h; exact absurd h (by simp)
  | succ m ih =>
    intro _ t
    rcases Nat.eq_zero_or_pos m with hm | hm
    · subst hm
      simp
    · rw [Function.iterate_succ_apply' (fun t => loadRows key upd t rs) m t,
        ih hm t]
      exact loadRows_idem key upd H t rs

end MergeCore

/-! ### The four warehouse tables (`src/snowflake/elt/load.py`) -/

/-- One row of `APEXML_DEV.RAW.SESSIONS`; columns as in `load_sessions`. -/
structure SessionRow where
  session_key : Val
  session_name : Val
  session_type : Val
  date_start : Val
  date_end : Val
  gmt_offset : Val
  location : Val
  country_name : Val
  circuit_short_name : Val
  year : Val
  ingested_at : Val
  deriving DecidableEq, Repr

/-- One row of `APEXML_DEV.RAW.DRIVERS`; columns as in `load_drivers`. -/
structure DriverRow where
  driver_number : Val
  session_key : Val
  broadcast_name : Val
  full_name : Val
  name_acronym : Val
  team_name : Val
  team_colour : Val
  headshot_url : Val
  country_code : Val
  ingested_at : Val
  deriving DecidableEq, Repr

/-- One row of `APEXML_DEV.RAW.LAPS`; columns as in `load_laps` (note the
source fields `duration_sector_i` land in columns `segment_i_duration`). -/
structure LapRow where
  session_key : Val
  driver_number : Val
  lap_number : Val
  lap_duration : Val
  segment_1_duration : Val
  segment_2_duration : Val
  segment_3_duration : Val
  is_pit_out_lap : Val
  date_start : Val
  ingested_at : Val
  deriving DecidableEq, Repr

/-- One row of `APEXML_DEV.RAW.POSITIONS`; columns as in `load_positions`. -/
structure PositionRow where
  session_key : Val
  driver_number : Val
  date : Val
  position : Val
  ingested_at : Val
  deriving DecidableEq, Repr

/-- Natural key of `SESSIONS`: `ON target.session_key = source.session_key`. -/
def keyS (r : SessionRow) : Val := r.session_key

/-- `WHEN MATCHED THEN UPDATE SET` of `load_sessions`: every column except
the key is overwritten from the source. -/
def updS (target source : SessionRow) : SessionRow :=
  { target with
    session_name := source.session_name
    session_type := source.session_type
    date_start := source.date_start
    date_end := source.date_end
    gmt_offset := source.gmt_offset
    location := source.location
    country_name := source.country_name
    circuit_short_name := source.circuit_short_name
    year := source.year
    ingested_at := source.ingested_at }

/-- Natural key of `DRIVERS`: `(driver_number, session_key)`. -/
def keyD (r : DriverRow) : Val × Val := (r.driver_number, r.session_key)

/-- `WHEN MATCHED THEN UPDATE SET` of `load_drivers`. -/
def updD (target source : DriverRow) : DriverRow :=
  { target with
    broadcast_name := source.broadcast_name
    full_name := source.full_name
    name_acronym := source.name_acronym
    team_name := source.team_name
    team_colour := source.team_colour
    headshot_url := source.headshot_url
    country_code := source.country_code
    ingested_at := source.ingested_at }

/-- Natural key of `LAPS`: `(session_key, driver_number, lap_number)`. -/
def keyL (r : LapRow) : Val × Val × Val := (r.session_key, r.driver_number, r.lap_number)

/-- `WHEN MATCHED THEN UPDATE SET` of `load_laps`. -/
def updL (target source : LapRow) : LapRow :=
  { target with
    lap_duration := source.lap_duration
    segment_1_duration := source.segment_1_duration
    segment_2_duration := source.segment_2_duration
    segment_3_duration := source.segment_3_duration
    is_pit_out_lap := source.is_pit_out_lap
    date_start := source.date_start
    ingested_at := source.ingested_at }

/-- Natural key of `POSITIONS`: `(session_key, driver_number, date)`. -/
def keyP (r : PositionRow) : Val × Val × Val := (r.session_key, r.driver_number, r.date)

/-- `WHEN MATCHED THEN UPDATE SET` of `load_positions`. -/
def updP (target source : PositionRow) : PositionRow :=
  { target with
    position := source.position
    ingested_at := source.ingested_at }

theorem updS_overwrites : ∀ row r, keyS row = keyS r → updS row r = r := by
  intro row r h
  cases row; cases r
  simp only [keyS] at h
  simp [updS, h]

theorem updD_overwrites : ∀ row r, keyD row = keyD r → updD row r = r := by
  intro row r h
  cases row; cases r
  simp only [keyD, Prod.mk.injEq] at h
  simp [updD, h.1, h.2]

theorem updL_overwrites : ∀ row r, keyL row = keyL r → updL row r = r := by
  intro row r h
  cases row; cases r
  simp only [keyL, Prod.mk.injEq] at h
  simp [updL, h.1, h.2.1, h.2.2]

theorem updP_overwrites : ∀ row r, keyP row = keyP r → updP row r = r := by
  intro row r h
  cases row; cases r
  simp only [keyP, Prod.mk.injEq] at h
  simp [updP, h.1, h.2.1, h.2.2]

/-! ### Binding source record dicts to rows

`load_sessions`/`load_drivers` pass the record dict straight to
`cursor.execute`, so pyformat binding fails (KeyError) if any referenced
field is absent.  `load_laps`/`load_positions` first build an explicit
params dict with `.get`, so an absent field binds as SQL NULL. -/

/-- Binding of one session dict by `load_sessions` (pyformat `%(name)s`
for each of the 11 referenced fields; `none` models the KeyError raised
when a field is absent). -/
def sessionRowOfDict (d : Dict) : Option SessionRow := do
  let vsession_key ← dfind d "session_key"
  let vsession_name ← dfind d "session_name"
  let vsession_type ← dfind d "session_type"
  let vdate_start ← dfind d "date_start"
  let vdate_end ← dfind d "date_end"
  let vgmt_offset ← dfind d "gmt_offset"
  let vlocation ← dfind d "location"
  let vcountry_name ← dfind d "country_name"
  let vcircuit_short_name ← dfind d "circuit_short_name"
  let vyear ← dfind d "year"
  let vingested_at ← dfind d "ingested_at"
  pure
    { session_key := vsession_key
      session_name := vsession_name
      session_type := vsession_type
      date_start := vdate_start
      date_end := vdate_end
      gmt_offset := vgmt_offset
      location := vlocation
      country_name := vcountry_name
      circuit_short_name := vcircuit_short_name
      year := vyear
      ingested_at := vingested_at }

/-- Binding of one driver dict by `load_drivers` (pyformat, fails when a
referenced field is absent). -/
def driverRowOfDict (d : Dict) : Option DriverRow := do
  let vdriver_number ← dfind d "driver_number"
  let vsession_key ← dfind d "session_key"
  let vbroadcast_name ← dfind d "broadcast_name"
  let vfull_name ← dfind d "full_name"
  let vname_acronym ← dfind d "name_acronym"
  let vteam_name ← dfind d "team_name"
  let vteam_colour ← dfind d "team_colour"
  let vheadshot_url ← dfind d "headshot_url"
  let vcountry_code ← dfind d "country_code"
  let vingested_at ← dfind d "ingested_at"
  pure
    { driver_number := vdriver_number
      session_key := vsession_key
      broadcast_name := vbroadcast_name
      full_name := vfull_name
      name_acronym := vname_acronym
      team_name := vteam_name
      team_colour := vteam_colour
      headshot_url := vheadshot_url
      country_code := vcountry_code
      ingested_at := vingested_at }

/-- The `lap_params` dict of `load_laps`: built with `.get`, so an absent
source field becomes `None` (SQL NULL); `duration_sector_i` is renamed to
`segment_i_duration` in the `USING (SELECT ...)` aliases. -/
def lapRowOfDict (d : Dict) : LapRow :=
  { session_key := dget d "session_key"
    driver_number := dget d "driver_number"
    lap_number := dget d "lap_number"
    lap_duration := dget d "lap_duration"
    segment_1_duration := dget d "duration_sector_1"
    segment_2_duration := dget d "duration_sector_2"
    segment_3_duration := dget d "duration_sector_3"
    is_pit_out_lap := dget d "is_pit_out_lap"
    date_start := dget d "date_start"
    ingested_at := dget d "ingested_at" }

/-- The `position_params` dict of `load_positions`: built with `.get`. -/
def positionRowOfDict (d : Dict) : PositionRow :=
  { session_key := dget d "session_key"
    driver_number := dget d "driver_number"
    date := dget d "date"
    position := dget d "position"
    ingested_at := dget d "ingested_at" }

/-- Bind a whole batch; `none` when any record fails to bind. -/
def bindAll {ρ : Type} (f : Dict → Option ρ) : List Dict → Option (List ρ)
  | [] => some []
  | d :: rest =>
    match f d, bindAll f rest with
    | some r, some rs => some (r :: rs)
    | _, _ => none

/-- The rows bound before the first binding failure (Snowflake's
autocommit / `conn.commit()` discipline makes the merges executed before a
mid-loop exception durable, so the table state on failure reflects exactly
this prefix). -/
def boundPrefix {ρ : Type} (f : Dict → Option ρ) : List Dict → List ρ
  | [] => []
  | d :: rest =>
    match f d with
    | none => []
    | some r => r :: boundPrefix f rest

/-- The per-record loop shared by `load_sessions` and `load_drivers`:
bind the dict, execute the `MERGE`, count; `none` in the second component
models the exception raised by a record that fails to bind (the first
component is the table state left behind, per-statement commits being
already durable). On success the count equals the input length. -/
def loadDicts {ρ κ : Type} [DecidableEq κ] (f : Dict → Option ρ) (key : ρ → κ)
    (upd : ρ → ρ → ρ) : List ρ → List Dict → List ρ × Option Nat
  | t, [] => (t, some 0)
  | t, d :: rest =>
    match f d with
    | none => (t, none)
    | some r =>
      let res := loadDicts f key upd (mergeRow key upd t r) rest
      (res.1, res.2.map (fun c => c + 1))

/-- `load_sessions(conn, sessions)`. -/
def loadSessions (t : List SessionRow) (sessions : List Dict) : List SessionRow × Option Nat :=
  loadDicts sessionRowOfDict keyS updS t sessions

/-- `load_drivers(conn, drivers)`. -/
def loadDrivers (t : List DriverRow) (drivers : List Dict) : List DriverRow × Option Nat :=
  loadDicts driverRowOfDict keyD updD t drivers

/-- `load_laps(conn, laps)`: every record binds (`.get` never raises), so
the count always equals the input length. -/
def loadLaps (t : List LapRow) (laps : List Dict) : List LapRow × Nat :=
  (loadRows keyL updL t (laps.map lapRowOfDict), laps.length)

/-- `load_positions(conn, positions)`. -/
def loadPositions (t : List PositionRow) (positions : List Dict) : List PositionRow × Nat :=
  (loadRows keyP updP t (positions.map positionRowOfDict), positions.length)

theorem loadDicts_fst {ρ κ : Type} [DecidableEq κ] (f : Dict → Option ρ) (key : ρ → κ)
    (upd : ρ → ρ → ρ) :
    ∀ (ds : List Dict) (t : List ρ),
      (loadDicts f key upd t ds).1 = loadRows key upd t (boundPrefix f ds) := by
  intro ds
  induction ds with
  | nil => intro t; rfl
  | cons d rest ih =>
    intro t
    simp only [loadDicts, boundPrefix]
    rcases f d with _ | r
    · rfl
    · simp only []
      rw [ih]
      rfl

theorem loadDicts_success {ρ κ : Type} [DecidableEq κ] (f : Dict → Option ρ) (key : ρ → κ)
    (upd : ρ → ρ → ρ) :
    ∀ (ds : List Dict) (rows : List ρ) (t : List ρ), bindAll f ds = some rows →
      loadDicts f key upd t ds = (loadRows key upd t rows, some ds.length) := by
  intro ds
  induction ds with
  | nil =>
    intro rows t h
    simp only [bindAll, Option.some.injEq] at h
    subst h
    rfl
  | cons d rest ih =>
    intro rows t h
    simp only [bindAll] at h
    rcases hd : f d with _ | r <;> rw [hd] at h
    · simp at h
    · rcases hrest : bindAll f rest with _ | rs <;> rw [hrest] at h
      · simp at h
      · simp only [Option.some.injEq] at h
        subst h
        simp only [loadDicts, hd]
        rw [ih rs _ hrest]
        rfl

theorem boundPrefix_of_bindAll {ρ : Type} (f : Dict → Option ρ) :
    ∀ (ds : List Dict) (rows : List ρ), bindAll f ds = some rows →
      boundPrefix f ds = rows := by
  intro ds
  induction ds with
  | nil =>
    intro rows h
    simp only [bindAll, Option.some.injEq] at h
    subst h
    rfl
  | cons d rest ih =>
    intro rows h
    simp only [bindAll] at h
    rcases hd : f d with _ | r <;> rw [hd] at h
    · simp at h
    · rcases hrest : bindAll f rest with _ | rs <;> rw [hrest] at h
      · simp at h
      · simp only [Option.some.injEq] at h
        subst h
        simp only [boundPrefix, hd]
        rw [ih rs hrest]

/-! ### Warehouse state and load-call sequences -/

/-- The four raw tables. -/
structure Warehouse where
  sessions : List SessionRow
  drivers : List DriverRow
  laps : List LapRow
  positions : List PositionRow
  deriving DecidableEq, Repr

/-- A warehouse with all four tables empty. -/
def emptyWarehouse : Warehouse := ⟨[], [], [], []⟩

/-- One call to one of the four load functions, with its record batch. -/
inductive LoadCall where
  | sessions (records : List Dict)
  | drivers (records : List Dict)
  | laps (records : List Dict)
  | positions (records : List Dict)
  deriving Repr

/-- Apply one load call to the warehouse: the table state the call leaves
behind, whether or not the whole batch bound successfully. -/
def applyCall (w : Warehouse) : LoadCall → Warehouse
  | .sessions rs => { w with sessions := (loadSessions w.sessions rs).1 }
  | .drivers rs => { w with drivers := (loadDrivers w.drivers rs).1 }
  | .laps rs => { w with laps := (loadLaps w.laps rs).1 }
  | .positions rs => { w with positions := (loadPositions w.positions rs).1 }

/-- Apply a sequence of load calls. -/
def runCalls (w : Warehouse) (calls : List LoadCall) : Warehouse :=
  calls.foldl applyCall w

/-- No table holds two rows with the same natural key. -/
def uniqueKeys (w : Warehouse) : Prop :=
  (w.sessions.map keyS).Nodup ∧ (w.drivers.map keyD).Nodup
    ∧ (w.laps.map keyL).Nodup ∧ (w.positions.map keyP).Nodup

theorem applyCall_unique {w : Warehouse} (c : LoadCall) (h : uniqueKeys w) :
    uniqueKeys (applyCall w c) := by
  rcases h with ⟨h1, h2, h3, h4⟩
  cases c with
  | sessions rs =>
    refine ⟨?_, h2, h3, h4⟩
    show (((loadSessions w.sessions rs).1).map keyS).Nodup
    simp only [loadSessions]
    rw [loadDicts_fst]
    exact loadRows_keys_nodup keyS updS updS_overwrites _ _ h1
  | drivers rs =>
    refine ⟨h1, ?_, h3, h4⟩
    show (((loadDrivers w.drivers rs).1).map keyD).Nodup
    simp only [loadDrivers]
    rw [loadDicts_fst]
    exact loadRows_keys_nodup keyD updD updD_overwrites _ _ h2
  | laps rs =>
    refine ⟨h1, h2, ?_, h4⟩
    show (((loadLaps w.laps rs).1).map keyL).Nodup
    exact loadRows_keys_nodup keyL updL updL_overwrites _ _ h3
  | positions rs =>
    refine ⟨h1, h2, h3, ?_⟩
    show (((loadPositions w.positions rs).1).map keyP).Nodup
    exact loadRows_keys_nodup keyP updP updP_overwrites _ _ h4

/-- C2: natural-key uniqueness is an invariant of every load sequence
starting from an empty warehouse: no table ever holds two rows sharing the
same natural key (`session_key`; `(driver_number, session_key)`;
`(session_key, driver_number, lap_number)`;
`(session_key, driver_number, date)`). -/
theorem c2_natural_key_uniqueness (calls : List LoadCall) :
    uniqueKeys (runCalls emptyWarehouse calls) := by
  have hgen : ∀ (cs : List LoadCall) (w : Warehouse), uniqueKeys w →
      uniqueKeys (runCalls w cs) := by
    intro cs
    induction cs with
    | nil => intro w h; exact h
    | cons c cs ih =>
      intro w h
      exact ih (applyCall w c) (applyCall_unique c h)
  exact hgen calls emptyWarehouse ⟨List.nodup_nil, List.nodup_nil, List.nodup_nil, List.nodup_nil⟩

/-- C1: loading the same fetched bundle is idempotent.  For any starting
tables and any record batches: (i) loading a batch twice in succession
leaves each of the four tables exactly as loading it once (same rows, hence
same row count and field values); (ii) loading the same batch `n ≥ 1` times
into an empty table equals loading it once; (iii) after loading into an
empty table, each table holds exactly one row per distinct natural key,
whose fields (including `ingested_at`) are those of the last record in the
batch with that key. -/
theorem c1_upsert_idempotent
    (tS : List SessionRow) (tD : List DriverRow) (tL : List LapRow) (tP : List PositionRow)
    (ss ds ls ps : List Dict) (n : Nat) (hn : 1 ≤ n)
    (srows : List SessionRow) (drows : List DriverRow)
    (hs : bindAll sessionRowOfDict ss = some srows)
    (hd : bindAll driverRowOfDict ds = some drows) :
    ((loadSessions (loadSessions tS ss).1 ss).1 = (loadSessions tS ss).1
      ∧ (loadDrivers (loadDrivers tD ds).1 ds).1 = (loadDrivers tD ds).1
      ∧ (loadLaps (loadLaps tL ls).1 ls).1 = (loadLaps tL ls).1
      ∧ (loadPositions (loadPositions tP ps).1 ps).1 = (loadPositions tP ps).1)
    ∧ ((fun t => (loadSessions t ss).1)^[n] [] = (loadSessions [] ss).1
      ∧ (fun t => (loadDrivers t ds).1)^[n] [] = (loadDrivers [] ds).1
      ∧ (fun t => (loadLaps t ls).1)^[n] [] = (loadLaps [] ls).1
      ∧ (fun t => (loadPositions t ps).1)^[n] [] = (loadPositions [] ps).1)
    ∧ ((∀ k, (loadSessions [] ss).1.filter (fun row => decide (keyS row = k))
          = (lastWith keyS srows k).toList)
      ∧ (∀ k, (loadDrivers [] ds).1.filter (fun row => decide (keyD row = k))
          = (lastWith keyD drows k).toList)
      ∧ (∀ k, (loadLaps [] ls).1.filter (fun row => decide (keyL row = k))
          = (lastWith keyL (ls.map lapRowOfDict) k).toList)
      ∧ (∀ k, (loadPositions [] ps).1.filter (fun row => decide (keyP row = k))
          = (lastWith keyP (ps.map positionRowOfDict) k).toList)) := by
  have hfS : ∀ t, (loadSessions t ss).1 = loadRows keyS updS t srows := by
    intro t
    simp only [loadSessions]
    rw [loadDicts_success sessionRowOfDict keyS updS ss srows t hs]
  have hfD : ∀ t, (loadDrivers t ds).1 = loadRows keyD updD t drows := by
    intro t
    simp only [loadDrivers]
    rw [loadDicts_success driverRowOfDict keyD updD ds drows t hd]
  have hfL : ∀ t, (loadLaps t ls).1 = loadRows keyL updL t (ls.map lapRowOfDict) :=
    fun _ => rfl
  have hfP : ∀ t, (loadPositions t ps).1 = loadRows keyP updP t (ps.map positionRowOfDict) :=
    fun _ => rfl
  refine ⟨⟨?_, ?_, ?_, ?_⟩, ⟨?_, ?_, ?_, ?_⟩, ⟨?_, ?_, ?_, ?_⟩⟩
  · simp only [hfS]
    exact loadRows_idem keyS updS updS_overwrites tS srows
  · simp only [hfD]
    exact loadRows_idem keyD updD updD_overwrites tD drows
  · simp only [hfL]
    exact loadRows_idem keyL updL updL_overwrites tL _
  · simp only [hfP]
    exact loadRows_idem keyP updP updP_overwrites tP _
  · have heq : (fun t => (loadSessions t ss).1) = fun t => loadRows keyS updS t srows :=
      funext hfS
    rw [heq]
    simp only [hfS]
    exact loadRows_iterate keyS updS updS_overwrites srows n hn []
  · have heq : (fun t => (loadDrivers t ds).1) = fun t => loadRows keyD updD t drows :=
      funext hfD
    rw [heq]
    simp only [hfD]
    exact loadRows_iterate keyD updD updD_overwrites drows n hn []
  · exact loadRows_iterate keyL updL updL_overwrites (ls.map lapRowOfDict) n hn []
  · exact loadRows_iterate keyP updP updP_overwrites (ps.map positionRowOfDict) n hn []
  · intro k
    simp only [hfS]
    exact loadRows_nil_filter keyS updS updS_overwrites srows k
  · intro k
    simp only [hfD]
    exact loadRows_nil_filter keyD updD updD_overwrites drows k
  · intro k
    exact loadRows_nil_filter keyL updL updL_overwrites (ls.map lapRowOfDict) k
  · intro k
    exact loadRows_nil_filter keyP updP updP_overwrites (ps.map positionRowOfDict) k

/-- Concrete session record (spec §8 end-to-end scenario values). -/
def sessDict : Dict :=
  [("session_key", Val.i 9158), ("session_name", Val.s "Race"),
   ("session_type", Val.s "Race"), ("date_start", Val.s "2024-07-28T13:00:00Z"),
   ("date_end", Val.s "2024-07-28T15:00:00Z"), ("gmt_offset", Val.s "02:00:00"),
   ("location", Val.s "Spa-Francorchamps"), ("country_name", Val.s "Belgium"),
   ("circuit_short_name", Val.s "SPA"), ("year", Val.i 2024),
   ("ingested_at", Val.s "2024-07-29T00:00:00")]

/-- Concrete driver record. -/
def drvDict : Dict :=
  [("driver_number", Val.i 1), ("session_key", Val.i 9158),
   ("broadcast_name", Val.s "M VERSTAPPEN"), ("full_name", Val.s "Max Verstappen"),
   ("name_acronym", Val.s "VER"), ("team_name", Val.s "Red Bull Racing"),
   ("team_colour", Val.s "3671C6"), ("headshot_url", Val.null),
   ("country_code", Val.s "NED"), ("ingested_at", Val.s "2024-07-29T00:00:00")]

/-- Concrete lap record, lap 1. -/
def lapDict1 : Dict :=
  [("session_key", Val.i 9158), ("driver_number", Val.i 1), ("lap_number", Val.i 1),
   ("lap_duration", Val.s "94.311"), ("duration_sector_1", Val.s "30.1"),
   ("duration_sector_2", Val.s "32.2"), ("duration_sector_3", Val.s "32.0"),
   ("is_pit_out_lap", Val.b false), ("date_start", Val.s "2024-07-28T13:01:00Z"),
   ("ingested_at", Val.s "2024-07-29T00:00:00")]

/-- Concrete lap record, lap 2 (missing `duration_sector_2`). -/
def lapDict2 : Dict :=
  [("session_key", Val.i 9158), ("driver_number", Val.i 1), ("lap_number", Val.i 2),
   ("lap_duration", Val.s "93.820"), ("duration_sector_1", Val.s "29.9"),
   ("duration_sector_3", Val.s "31.8"), ("is_pit_out_lap", Val.b false),
   ("date_start", Val.s "2024-07-28T13:02:35Z"),
   ("ingested_at", Val.s "2024-07-29T00:00:00")]

/-- Concrete position record. -/
def posDict : Dict :=
  [("session_key", Val.i 9158), ("driver_number", Val.i 1),
   ("date", Val.s "2024-07-28T13:01:00Z"), ("position", Val.i 1),
   ("ingested_at", Val.s "2024-07-29T00:00:00")]

theorem c1_upsert_idempotent_witness :
    (loadSessions (loadSessions [] [sessDict]).1 [sessDict]).1 = (loadSessions [] [sessDict]).1
    ∧ (fun t => (loadLaps t [lapDict1, lapDict2]).1)^[2] [] = (loadLaps [] [lapDict1, lapDict2]).1 := by
  have h := c1_upsert_idempotent [] [] [] [] [sessDict] [drvDict] [lapDict1, lapDict2]
    [posDict] 2 (by decide) (boundPrefix sessionRowOfDict [sessDict])
    (boundPrefix driverRowOfDict [drvDict]) rfl rfl
  exact ⟨h.1.1, h.2.1.2.2.1⟩

theorem dget_of_dfind_none {d : Dict} {k : String} (h : dfind d k = none) :
    dget d k = Val.null := by
  unfold dfind at h
  unfold dget
  rcases hf : d.find? (fun kv => kv.1 = k) with _ | kv
  · rw [hf]
  · rw [hf] at h
    simp at h

/-- C8 (amended): `load_laps` and `load_positions` build their params with
`.get`, so they never fail on an absent field and write an absent optional
field (e.g. a missing sector duration) as SQL NULL, never as zero; but
`load_sessions` and `load_drivers` pass the record dict straight to
pyformat binding, so a record missing any referenced field makes that load
raise instead of writing NULL. -/
theorem c8_missing_optional_fields
    (tL : List LapRow) (tP : List PositionRow) (ls ps ss ds : List Dict) (d : Dict)
    (tS : List SessionRow) (tD : List DriverRow) :
    ((loadLaps tL ls).2 = ls.length)
    ∧ ((loadPositions tP ps).2 = ps.length)
    ∧ (dfind d "lap_duration" = none → (lapRowOfDict d).lap_duration = Val.null)
    ∧ (dfind d "duration_sector_1" = none → (lapRowOfDict d).segment_1_duration = Val.null)
    ∧ (dfind d "duration_sector_2" = none → (lapRowOfDict d).segment_2_duration = Val.null)
    ∧ (dfind d "duration_sector_3" = none → (lapRowOfDict d).segment_3_duration = Val.null)
    ∧ (dfind d "is_pit_out_lap" = none → (lapRowOfDict d).is_pit_out_lap = Val.null)
    ∧ (dfind d "position" = none → (positionRowOfDict d).position = Val.null)
    ∧ (sessionRowOfDict d = none → (loadSessions tS (d :: ss)).2 = none)
    ∧ (driverRowOfDict d = none → (loadDrivers tD (d :: ds)).2 = none) := by
  refine ⟨rfl, rfl, ?_, ?_, ?_, ?_, ?_, ?_, ?_, ?_⟩
  · intro h; exact dget_of_dfind_none h
  · intro h; exact dget_of_dfind_none h
  · intro h; exact dget_of_dfind_none h
  · intro h; exact dget_of_dfind_none h
  · intro h; exact dget_of_dfind_none h
  · intro h; exact dget_of_dfind_none h
  · intro h
    simp only [loadSessions, loadDicts, h]
  · intro h
    simp only [loadDrivers, loadDicts, h]

theorem c8_missing_optional_fields_witness :
    dfind lapDict2 "duration_sector_2" = none
    ∧ (lapRowOfDict lapDict2).segment_2_duration = Val.null :=
  ⟨rfl, (c8_missing_optional_fields [] [] [] [] [] [] lapDict2 [] []).2.2.2.2.1 rfl⟩

/-- `sessDict` with its (non-key, numeric) `year` field removed. -/
def sessDictNoYear : Dict := sessDict.filter (fun kv => !(kv.1 == "year"))

/-- C8 counterexample: the claim says none of the four load functions fails
when an optional field is absent from a source record; but `load_sessions`
on a session record missing `year` raises (pyformat KeyError, modelled as a
`none` count) and writes nothing, instead of writing NULL. -/
theorem c8_counterexample :
    (loadSessions [] [sessDictNoYear]).2 = none
    ∧ (loadSessions [] [sessDictNoYear]).1 = [] := ⟨rfl, rfl⟩

/-! ### Change-set resolver and orchestrators
(`load_by_year.py`, `load_new_data.py`, `load_historical.py`) -/

/-- An upstream session record as the orchestrators use it: only its
`session_key` matters for resolving and reporting (the other fields are
read only for log strings). -/
structure SessionMeta where
  session_key : Int
  deriving DecidableEq, Repr

/-- The change-set step of `load_year_data` (and, with
`forceReload = false`, of `load_new_data`): keep the upstream sessions
whose `session_key` is not among the warehouse-loaded keys; with
`force_reload` keep everything. -/
def resolveChangeSet (upstream : List SessionMeta) (loadedKeys : List Int)
    (forceReload : Bool) : List SessionMeta :=
  if forceReload then upstream
  else upstream.filter (fun s => !(loadedKeys.contains s.session_key))

/-- C4: the change-set resolver computes exact set difference: a session is
selected iff it is upstream and its key is not warehouse-present; if every
upstream key is present nothing is selected; with an empty warehouse
everything is selected; with `force_reload` everything is selected
regardless of the present set. -/
theorem c4_change_set_difference (U : List SessionMeta) (P : List Int) :
    (∀ s, s ∈ resolveChangeSet U P false ↔ s ∈ U ∧ s.session_key ∉ P)
    ∧ ((∀ s ∈ U, s.session_key ∈ P) → resolveChangeSet U P false = [])
    ∧ resolveChangeSet U [] false = U
    ∧ resolveChangeSet U P true = U := by
  refine ⟨?_, ?_, ?_, ?_⟩
  · intro s
    simp [resolveChangeSet, List.mem_filter]
  · intro h
    simp only [resolveChangeSet, if_neg Bool.false_ne_true]
    rw [List.filter_eq_nil_iff]
    intro s hs
    simp [h s hs]
  · simp [resolveChangeSet, List.filter_eq_self]
  · rfl

theorem c4_change_set_difference_witness :
    resolveChangeSet [⟨9158⟩, ⟨9159⟩] [9158, 9159] false = [] :=
  (c4_change_set_difference [⟨9158⟩, ⟨9159⟩] [9158, 9159]).2.1 (by decide)

/-- An exception raised while extracting or loading one session.  `conn`
marks warehouse connection errors (bad credentials, unreachable warehouse,
suspended compute), `data` everything else; Python's `except Exception`
handler catches both alike. -/
inductive PyErr where
  | conn (msg : String)
  | data (msg : String)
  deriving DecidableEq, Repr

/-- `str(e)`. -/
def PyErr.msg : PyErr → String
  | .conn m => m
  | .data m => m

/-- Whether a per-session step succeeded. -/
def isOkB {ε α : Type} : Except ε α → Bool
  | .ok _ => true
  | .error _ => false

/-- The per-session loop shared by the orchestrators (`load_new_data`
lines 117-143, `load_historical` lines 75-96, `load_by_year` lines
86-107): for each resolved session run `extract_session_data` +
`load_all` (`outcome s`, `.ok` with the fetched bundle or `.error` with
the raised exception); on success apply the bundle to the warehouse and
count it, on any exception record `(session_key, str(e))` and continue
with the next session.  Returns the final warehouse, `loaded_count` and
`failed_sessions`. -/
def runSessionLoop {W B : Type} (applyBundle : W → B → W)
    (outcome : SessionMeta → Except PyErr B) :
    W → List SessionMeta → W × Nat × List (Int × String)
  | w, [] => (w, 0, [])
  | w, s :: rest =>
    match outcome s with
    | .ok b =>
      let res := runSessionLoop applyBundle outcome (applyBundle w b) rest
      (res.1, res.2.1 + 1, res.2.2)
    | .error e =>
      let res := runSessionLoop applyBundle outcome w rest
      (res.1, res.2.1, (s.session_key, e.msg) :: res.2.2)

theorem runSessionLoop_spec {W B : Type} (applyBundle : W → B → W)
    (outcome : SessionMeta → Except PyErr B) :
    ∀ (sessions : List SessionMeta) (w : W),
      runSessionLoop applyBundle outcome w sessions
        = (sessions.foldl
            (fun w s => match outcome s with | .ok b => applyBundle w b | .error _ => w) w,
           sessions.countP (fun s => isOkB (outcome s)),
           sessions.filterMap
            (fun s => match outcome s with
              | .error e => some (s.session_key, e.msg)
              | .ok _ => none)) := by
  intro sessions
  induction sessions with
  | nil => intro w; rfl
  | cons s rest ih =>
    intro w
    simp only [runSessionLoop]
    rcases ho : outcome s with e | b
    · simp only [ih w, List.foldl_cons, List.countP_cons, List.filterMap_cons, ho,
        isOkB]
      simp
    · simp only [ih (applyBundle w b), List.foldl_cons, List.countP_cons,
        List.filterMap_cons, ho, isOkB]
      simp

/-- C7: per-unit failure isolation.  The orchestrator loop processes every
session: successes are exactly the sessions whose extract/load step
returned `.ok` (their bundles are all applied to the warehouse, in order,
regardless of other sessions' failures), failures are recorded in order
with the failing session's key and error string, and the summary counts
add up — succeeded + failed = attempted = all resolved sessions. -/
theorem c7_failure_isolation {W B : Type} (applyBundle : W → B → W)
    (outcome : SessionMeta → Except PyErr B) (sessions : List SessionMeta) (w : W) :
    (runSessionLoop applyBundle outcome w sessions
      = (sessions.foldl
          (fun w s => match outcome s with | .ok b => applyBundle w b | .error _ => w) w,
         sessions.countP (fun s => isOkB (outcome s)),
         sessions.filterMap
          (fun s => match outcome s with
            | .error e => some (s.session_key, e.msg)
            | .ok _ => none)))
    ∧ (runSessionLoop applyBundle outcome w sessions).2.1
        + (runSessionLoop applyBundle outcome w sessions).2.2.length
        = sessions.length := by
  refine ⟨runSessionLoop_spec applyBundle outcome sessions w, ?_⟩
  rw [runSessionLoop_spec applyBundle outcome sessions w]
  show sessions.countP (fun s => isOkB (outcome s))
      + (sessions.filterMap (fun s => match outcome s with
          | .error e => some (s.session_key, e.msg)
          | .ok _ => none)).length = sessions.length
  induction sessions with
  | nil => rfl
  | cons s rest ih =>
    rcases ho : outcome s with e | b
    · simp only [List.countP_cons, List.filterMap_cons, ho, List.length_cons]
      have hb : isOkB (Except.error e : Except PyErr B) = false := rfl
      rw [hb]
      simp only [Bool.false_eq_true, if_false]
      omega
    · simp only [List.countP_cons, List.filterMap_cons, ho, List.length_cons]
      have hb : isOkB (Except.ok b : Except PyErr B) = true := rfl
      rw [hb]
      simp only [if_true]
      omega

/-- The summary an orchestrator reports: attempted, succeeded, failed. -/
structure RunSummary where
  attempted : Nat
  succeeded : Nat
  failed : List (Int × String)
  deriving DecidableEq, Repr

/-- `load_new_data()` top-level control flow: fetch the recent upstream
session list, read the already-loaded keys from the warehouse (either step
may raise, e.g. a warehouse connection error from
`get_loaded_session_keys`; the outer `try` re-raises it and the run
aborts), resolve the change set, return early if it is empty, otherwise run
the per-session loop — whose `except Exception` handler catches every
per-session error, connection errors included — and report the summary. -/
def loadNewDataRun {W B : Type} (applyBundle : W → B → W) (w0 : W)
    (fetchUpstream : Except PyErr (List SessionMeta))
    (readLoadedKeys : Except PyErr (List Int))
    (outcome : SessionMeta → Except PyErr B) : Except PyErr (W × RunSummary) :=
  match fetchUpstream with
  | .error e => .error e
  | .ok recent =>
    match readLoadedKeys with
    | .error e => .error e
    | .ok loaded =>
      let newSessions := resolveChangeSet recent loaded false
      if newSessions.isEmpty then .ok (w0, ⟨0, 0, []⟩)
      else
        let res := runSessionLoop applyBundle outcome w0 newSessions
        .ok (res.1, ⟨newSessions.length, res.2.1, res.2.2⟩)

/-- C9 counterexample: the claim says a warehouse connection error raised
while processing one session aborts the whole run.  Concretely: three new
sessions, the second raising a connection error — the run does not abort:
it returns a normal summary, the error is caught per-session like any
other, and session 3 is still attempted and loaded (the final warehouse is
`[1, 3]`). -/
theorem c9_counterexample :
    loadNewDataRun (fun (w : List Int) (k : Int) => w ++ [k]) []
      (Except.ok [⟨1⟩, ⟨2⟩, ⟨3⟩]) (Except.ok [])
      (fun s => if s.session_key = 2
        then Except.error (PyErr.conn "250001: could not connect to Snowflake")
        else Except.ok s.session_key)
    = Except.ok ([1, 3],
        ⟨3, 2, [(2, "250001: could not connect to Snowflake")]⟩) := by
  rfl

/-- C9 (amended): a warehouse connection error raised before the
per-session loop — while fetching the upstream list or reading the
already-loaded keys — propagates and aborts the whole run; but a
connection error raised while processing an individual session is caught
by the per-session `except Exception` handler exactly like a data error:
it is recorded as that session's failure and the loop continues with every
remaining session. -/
theorem c9_connection_error_scope {W B : Type} (applyBundle : W → B → W) (w0 : W)
    (outcome : SessionMeta → Except PyErr B) (recent : List SessionMeta)
    (loaded : List Int) (rk : Except PyErr (List Int)) (e : PyErr) :
    (loadNewDataRun applyBundle w0 (Except.error e) rk outcome = Except.error e)
    ∧ (loadNewDataRun applyBundle w0 (Except.ok recent) (Except.error e) outcome
        = Except.error e)
    ∧ (loadNewDataRun applyBundle w0 (Except.ok recent) (Except.ok loaded) outcome
        = Except.ok
            ((runSessionLoop applyBundle outcome w0 (resolveChangeSet recent loaded false)).1,
             ⟨(resolveChangeSet recent loaded false).length,
              (runSessionLoop applyBundle outcome w0 (resolveChangeSet recent loaded false)).2.1,
              (runSessionLoop applyBundle outcome w0 (resolveChangeSet recent loaded false)).2.2⟩))
    ∧ ((runSessionLoop applyBundle outcome w0 (resolveChangeSet recent loaded false)).2.2
        = (resolveChangeSet recent loaded false).filterMap
            (fun s => match outcome s with
              | .error er => some (s.session_key, er.msg)
              | .ok _ => none)) := by
  refine ⟨rfl, rfl, ?_, ?_⟩
  · by_cases hemp : (resolveChangeSet recent loaded false).isEmpty
    · have hnil : resolveChangeSet recent loaded false = [] := by
        rwa [List.isEmpty_iff] at hemp
      simp [loadNewDataRun, hnil, runSessionLoop]
    · simp only [loadNewDataRun]
      rw [if_neg hemp]
  · rw [runSessionLoop_spec]

/-! ### Analytics query builder (`src/app/query_builder.py`) -/

/-- `QueryFilters`; a Python `None` optional filter and an empty list are
both falsy in the `if filters.drivers:` guards, so both are modelled as
`[]`. -/
structure QueryFilters where
  seasons : List Int
  drivers : List String := []
  teams : List String := []
  circuits : List String := []
  deriving Repr

/-- `F1QueryBuilder.METRIC_SQL`. -/
def METRIC_SQL : List (String × String) :=
  [("Average Lap Time", "AVG(l.lap_duration) as avg_lap_time"),
   ("Best Lap Time", "MIN(l.lap_duration) as best_lap_time"),
   ("Total Laps", "COUNT(*) as total_laps"),
   ("Average Position", "AVG(r.final_position) as avg_position"),
   ("Best Position", "MIN(r.final_position) as best_position"),
   ("Worst Position", "MAX(r.final_position) as worst_position"),
   ("Total Sessions", "COUNT(DISTINCT l.session_key) as total_sessions"),
   ("Pit Stop Laps", "SUM(CASE WHEN rl.is_pit_out_lap THEN 1 ELSE 0 END) as pit_stop_laps"),
   ("Average Sector 1", "AVG(l.segment_1_duration) as avg_sector_1"),
   ("Average Sector 2", "AVG(l.segment_2_duration) as avg_sector_2"),
   ("Average Sector 3", "AVG(l.segment_3_duration) as avg_sector_3"),
   ("Fastest Laps Count", "SUM(CASE WHEN l.is_driver_fastest_lap THEN 1 ELSE 0 END) as fastest_laps_count")]

/-- Metric-name lookup in the whitelist. -/
def metricSQL (m : String) : Option String :=
  (METRIC_SQL.find? (fun p => p.1 = m)).map (fun p => p.2)

/-- `F1QueryBuilder.DIMENSION_SQL`: select expressions and GROUP BY
columns; `Driver`/`Team`/`Season`/`Circuit` carry one select expression,
`Laps` carries three. -/
def DIMENSION_SQL : List (String × (List String × List String)) :=
  [("Driver", (["d.full_name as driver"], ["d.full_name"])),
   ("Team", (["d.team_name as team"], ["d.team_name"])),
   ("Season", (["l.year as season"], ["l.year"])),
   ("Circuit", (["l.circuit_short_name as circuit"], ["l.circuit_short_name"])),
   ("Laps", (["l.lap_number as lap",
              "l.lap_position as position_during_lap",
              "CASE WHEN rl.is_pit_out_lap THEN 'Yes' ELSE 'No' END as is_pit_lap"],
             ["l.lap_number", "l.lap_position", "rl.is_pit_out_lap"]))]

/-- Dimension-name lookup in the whitelist. -/
def dimensionSQL (d : String) : Option (List String × List String) :=
  (DIMENSION_SQL.find? (fun p => p.1 = d)).map (fun p => p.2)

/-- `F1QueryBuilder._build_where_conditions`, reproduced exactly: filter
values are interpolated into the SQL text verbatim with no escaping, and
the multi-value circuit branch carries the stray trailing quote of
`query_builder.py` line 171. -/
def buildWhereConditions (f : QueryFilters) : List String :=
  ["l.lap_duration > 0"]
  ++ [if f.seasons.length = 1
      then "l.year = " ++ toString (f.seasons.headD 0)
      else "l.year IN (" ++ String.intercalate ", " (f.seasons.map toString) ++ ")"]
  ++ (if f.drivers.isEmpty then [] else
      [if f.drivers.length = 1
       then "d.full_name = '" ++ f.drivers.headD "" ++ "'"
       else "d.full_name IN ('" ++ String.intercalate "', '" f.drivers ++ "')"])
  ++ (if f.teams.isEmpty then [] else
      [if f.teams.length = 1
       then "d.team_name = '" ++ f.teams.headD "" ++ "'"
       else "d.team_name IN ('" ++ String.intercalate "', '" f.teams ++ "')"])
  ++ (if f.circuits.isEmpty then [] else
      [if f.circuits.length = 1
       then "l.circuit_short_name = '" ++ f.circuits.headD "" ++ "'"
       else "l.circuit_short_name IN ('" ++ String.intercalate "', '" f.circuits ++ "')'"])

/-- The always-present driver join of `_build_join_clauses`. -/
def driverJoin : String := "JOIN dim_drivers d ON l.driver_number = d.driver_number"

/-- The raw-laps join (added when pit-stop data is needed). -/
def rawLapsJoin (database : String) : String :=
  "LEFT JOIN " ++ database ++ ".RAW.LAPS rl ON l.session_key = rl.session_key "
    ++ "AND l.driver_number = rl.driver_number AND l.lap_number = rl.lap_number"

/-- The race-results join (added when a position metric is selected). -/
def raceResultsJoin : String :=
  "LEFT JOIN fct_race_results r ON l.driver_number = r.driver_number "
    ++ "AND l.session_key = r.session_key"

/-- The three position metrics tested by `_build_join_clauses`. -/
def positionMetrics : List String := ["Average Position", "Best Position", "Worst Position"]

/-- `F1QueryBuilder._build_join_clauses`. -/
def buildJoinClauses (database : String) (metrics : List String)
    (needsRawLaps : Bool) : List String :=
  [driverJoin]
  ++ (if needsRawLaps then [rawLapsJoin database] else [])
  ++ (if positionMetrics.any (fun m => metrics.contains m) then [raceResultsJoin] else [])

/-- Boolean list-prefix test on characters. -/
def prefixOf : List Char → List Char → Bool
  | [], _ => true
  | _ :: _, [] => false
  | a :: p, b :: l => a = b && prefixOf p l

/-- Boolean substring (contiguous infix) test on characters. -/
def infixOf (p : List Char) : List Char → Bool
  | [] => p.isEmpty
  | b :: rest => prefixOf p (b :: rest) || infixOf p rest

/-- Split off the text before the first occurrence of `sep` and the text
after it; `none` when `sep` does not occur. -/
def findSplit (sep : List Char) : List Char → Option (List Char × List Char)
  | [] => none
  | c :: rest =>
    if prefixOf sep (c :: rest) then some ([], (c :: rest).drop sep.length)
    else
      match findSplit sep rest with
      | none => none
      | some (before, after) => some (c :: before, after)

/-- Fuel-driven splitting on every occurrence of `sep`. -/
def splitList (sep : List Char) : Nat → List Char → List (List Char)
  | 0, l => [l]
  | fuel + 1, l =>
    match findSplit sep l with
    | none => [l]
    | some (before, after) => before :: splitList sep fuel after

/-- Python's `s.split(sep)` for a non-empty separator. -/
def pySplit (sep : String) (s : String) : List String :=
  (splitList sep.data (s.data.length + 1) s.data).map (fun cs => String.mk cs)

/-- First-error-wins accumulation, mirroring the `for` loops that `raise`
at the first unknown metric/dimension name. -/
def collectExcept {α β : Type} (f : α → Except String β) : List α → Except String (List β)
  | [] => .ok []
  | a :: rest =>
    match f a with
    | .error e => .error e
    | .ok b =>
      match collectExcept f rest with
      | .error e => .error e
      | .ok bs => .ok (b :: bs)

/-- `F1QueryBuilder.build_analytics_query` (the builder's `database`
attribute defaults to `APEXML_DEV`); `.error` models the raised
`ValueError`. -/
def buildAnalyticsQuery (database : String) (metrics dimensions : List String)
    (filters : QueryFilters) (limit : Int) : Except String String :=
  if metrics.isEmpty then .error "At least one metric is required"
  else if dimensions.isEmpty then .error "At least one dimension is required"
  else if filters.seasons.isEmpty then .error "At least one season is required"
  else
    match collectExcept (fun m => match metricSQL m with
      | some sql => Except.ok sql
      | none => Except.error ("Unknown metric: " ++ m)) metrics with
    | .error e => .error e
    | .ok metricSqlList =>
      match collectExcept (fun dim => match dimensionSQL dim with
        | some dd => Except.ok dd
        | none => Except.error ("Unknown dimension: " ++ dim)) dimensions with
      | .error e => .error e
      | .ok dimDefs =>
        let dimSql := (dimDefs.map (fun p => p.1)).flatten
        let groupBy := (dimDefs.map (fun p => p.2)).flatten
        let needsRawLaps := metrics.contains "Pit Stop Laps" || dimensions.contains "Laps"
        let whereConditions := buildWhereConditions filters
        let joinClauses := buildJoinClauses database metrics needsRawLaps
        let orderBy := (pySplit " as " (metricSqlList.headD "")).getD 1 ""
        .ok ("\n        SELECT\n            "
          ++ String.intercalate ", " dimSql ++ ",\n            "
          ++ String.intercalate ", " metricSqlList
          ++ "\n        FROM fct_lap_times l\n        "
          ++ String.intercalate "\n" joinClauses
          ++ "\n        WHERE " ++ String.intercalate " AND " whereConditions
          ++ "\n        GROUP BY " ++ String.intercalate ", " groupBy
          ++ "\n        ORDER BY " ++ orderBy
          ++ "\n        LIMIT " ++ toString limit
          ++ "\n        ")

/-- Number of single-quote characters in a string.  A well-formed SQL
fragment whose string literals escape embedded quotes (by doubling them)
always holds an even number of quote characters; an odd count means a
value's quote terminated its literal early. -/
def countQuotes (s : String) : Nat := s.data.countP (fun c => c = Char.ofNat 39)

/-- C3 counterexample: `_build_where_conditions` does not escape or
parameterize string filter values.  The driver name `O'Brien` is
interpolated verbatim, producing `d.full_name = 'O'Brien'`, whose three
(odd) quote characters show the value's own quote closed the literal after
`O` — the value breaks out of its quoted literal, contradicting the
claim. -/
theorem c3_counterexample :
    (buildWhereConditions ⟨[2024], ["O'Brien"], [], []⟩
      = ["l.lap_duration > 0", "l.year = 2024", "d.full_name = 'O'Brien'"])
    ∧ countQuotes "d.full_name = 'O'Brien'" = 3
    ∧ ¬ 2 ∣ countQuotes "d.full_name = 'O'Brien'" := by
  refine ⟨rfl, by decide, by decide⟩

/-- C3 (amended): string filter values (driver, team, circuit names) are
interpolated into the WHERE clause verbatim — `col = '<value>'` with the
raw value embedded and no escaping or parameterization, so a value
containing a single quote breaks out of the intended literal; season
values are interpolated by plain decimal rendering of the given integers,
with no runtime validation (the `List[int]` annotation is not enforced at
runtime). -/
theorem c3_no_escaping (y : Int) (v : String) :
    (buildWhereConditions ⟨[y], [v], [], []⟩
      = ["l.lap_duration > 0", "l.year = " ++ toString y,
         "d.full_name = '" ++ v ++ "'"])
    ∧ (buildWhereConditions ⟨[y], [], [v], []⟩
      = ["l.lap_duration > 0", "l.year = " ++ toString y,
         "d.team_name = '" ++ v ++ "'"])
    ∧ (buildWhereConditions ⟨[y], [], [], [v]⟩
      = ["l.lap_duration > 0", "l.year = " ++ toString y,
         "l.circuit_short_name = '" ++ v ++ "'"]) := by
  refine ⟨rfl, rfl, rfl⟩

/-- C5 evidence: single-value filters render as `=` and multi-value
filters as `IN (...)` for seasons, drivers and teams; but the multi-value
circuit branch appends a stray quote after the closing parenthesis
(`query_builder.py` line 171), so a multi-circuit filter renders as the
malformed `l.circuit_short_name IN ('SPA', 'MONZA')'` instead of a
well-formed IN-list predicate. -/
theorem c5_multi_value_filters :
    (buildWhereConditions ⟨[2024], [], [], []⟩
      = ["l.lap_duration > 0", "l.year = 2024"])
    ∧ (buildWhereConditions ⟨[2024, 2023, 2022], [], [], []⟩
      = ["l.lap_duration > 0", "l.year IN (2024, 2023, 2022)"])
    ∧ (buildWhereConditions ⟨[2024], ["A", "B"], ["T1", "T2"], []⟩
      = ["l.lap_duration > 0", "l.year = 2024", "d.full_name IN ('A', 'B')",
         "d.team_name IN ('T1', 'T2')"])
    ∧ (buildWhereConditions ⟨[2024], [], [], ["SPA", "MONZA"]⟩
      = ["l.lap_duration > 0", "l.year = 2024",
         "l.circuit_short_name IN ('SPA', 'MONZA')'"]) := by
  refine ⟨rfl, rfl, rfl, rfl⟩

theorem metric_lift_ok_iff (m : String) :
    (∃ b, (match metricSQL m with
      | some sql => Except.ok sql
      | none => (Except.error ("Unknown metric: " ++ m) : Except String String))
        = Except.ok b)
    ↔ (metricSQL m).isSome = true := by
  rcases h : metricSQL m with _ | sql <;> simp [h]

theorem dimension_lift_ok_iff (d : String) :
    (∃ b, (match dimensionSQL d with
      | some dd => Except.ok dd
      | none => (Except.error ("Unknown dimension: " ++ d)
          : Except String (List String × List String)))
        = Except.ok b)
    ↔ (dimensionSQL d).isSome = true := by
  rcases h : dimensionSQL d with _ | dd <;> simp [h]

theorem collectExcept_ok_iff {α β : Type} (f : α → Except String β) :
    ∀ l : List α, (∃ bs, collectExcept f l = Except.ok bs)
      ↔ ∀ a ∈ l, ∃ b, f a = Except.ok b := by
  intro l
  induction l with
  | nil => simp [collectExcept]
  | cons a rest ih =>
    simp only [collectExcept]
    constructor
    · rintro ⟨bs, hbs⟩
      rcases ha : f a with e | b <;> rw [ha] at hbs
      · simp at hbs
      · rcases hr : collectExcept f rest with e2 | bs2 <;> rw [hr] at hbs
        · simp at hbs
        · intro x hx
          rcases List.mem_cons.mp hx with h | h
          · exact ⟨b, by rw [h]; exact ha⟩
          · exact (ih.mp ⟨bs2, hr⟩) x h
    · intro h
      rcases h a (List.mem_cons_self _ _) with ⟨b, hb⟩
      rw [hb]
      rcases ih.mpr (fun x hx => h x (List.mem_cons_of_mem _ hx)) with ⟨bs2, hbs2⟩
      rw [hbs2]
      exact ⟨b :: bs2, rfl⟩

/-- C6: `build_analytics_query` raises a `ValueError` (returns no SQL)
exactly when the input is invalid — empty metrics, empty dimensions, an
empty seasons filter, an unknown metric name or an unknown dimension name;
for every input with non-empty whitelisted metrics, non-empty whitelisted
dimensions and at least one season it returns a SQL string without
raising. -/
theorem c6_validation (database : String) (metrics dimensions : List String)
    (filters : QueryFilters) (limit : Int) :
    (∃ q, buildAnalyticsQuery database metrics dimensions filters limit = Except.ok q)
      ↔ (metrics ≠ [] ∧ dimensions ≠ [] ∧ filters.seasons ≠ []
          ∧ (∀ m ∈ metrics, (metricSQL m).isSome = true)
          ∧ (∀ d ∈ dimensions, (dimensionSQL d).isSome = true)) := by
  unfold buildAnalyticsQuery
  by_cases hm : metrics.isEmpty
  · rw [if_pos hm]
    have h0 : metrics = [] := List.isEmpty_iff.mp hm
    subst h0
    simp
  · rw [if_neg hm]
    have hm' : metrics ≠ [] := fun h => hm (by simp [h])
    by_cases hd : dimensions.isEmpty
    · rw [if_pos hd]
      have h0 : dimensions = [] := List.isEmpty_iff.mp hd
      subst h0
      simp
    · rw [if_neg hd]
      have hd' : dimensions ≠ [] := fun h => hd (by simp [h])
      by_cases hs : filters.seasons.isEmpty
      · rw [if_pos hs]
        have h0 : filters.seasons = [] := List.isEmpty_iff.mp hs
        simp [h0]
      · rw [if_neg hs]
        have hs' : filters.seasons ≠ [] := fun h => hs (by simp [h])
        rcases hc1 : collectExcept (fun m => match metricSQL m with
          | some sql => Except.ok sql
          | none => Except.error ("Unknown metric: " ++ m)) metrics with e | msl
        · simp only [hc1]
          constructor
          · rintro ⟨q, hq⟩
            exact absurd hq (by simp)
          · rintro ⟨_, _, _, hall, _⟩
            have : ∀ m ∈ metrics, ∃ b, (match metricSQL m with
                | some sql => Except.ok sql
                | none => (Except.error ("Unknown metric: " ++ m)
                    : Except String String)) = Except.ok b :=
              fun m hmem => (metric_lift_ok_iff m).mpr (hall m hmem)
            rcases (collectExcept_ok_iff _ metrics).mpr this with ⟨bs, hbs⟩
            rw [hc1] at hbs
            simp at hbs
        · rcases hc2 : collectExcept (fun dim => match dimensionSQL dim with
            | some dd => Except.ok dd
            | none => Except.error ("Unknown dimension: " ++ dim)) dimensions with e | dds
          · simp only [hc1, hc2]
            constructor
            · rintro ⟨q, hq⟩
              exact absurd hq (by simp)
            · rintro ⟨_, _, _, _, hall⟩
              have : ∀ d ∈ dimensions, ∃ b, (match dimensionSQL d with
                  | some dd => Except.ok dd
                  | none => (Except.error ("Unknown dimension: " ++ d)
                      : Except String (List String × List String))) = Except.ok b :=
                fun d hmem => (dimension_lift_ok_iff d).mpr (hall d hmem)
              rcases (collectExcept_ok_iff _ dimensions).mpr this with ⟨bs, hbs⟩
              rw [hc2] at hbs
              simp at hbs
          · simp only [hc1, hc2]
            constructor
            · intro _
              refine ⟨hm', hd', hs', ?_, ?_⟩
              · intro m hmem
                exact (metric_lift_ok_iff m).mp
                  ((collectExcept_ok_iff _ metrics).mp ⟨msl, hc1⟩ m hmem)
              · intro d hmem
                exact (dimension_lift_ok_iff d).mp
                  ((collectExcept_ok_iff _ dimensions).mp ⟨dds, hc2⟩ d hmem)
            · intro _
              exact ⟨_, rfl⟩

theorem rawLapsJoin_head (db : String) : (rawLapsJoin db).data.head? = some 'L' := rfl

theorem rawLapsJoin_last (db : String) : (rawLapsJoin db).data.getLast? = some 'r' := by
  rw [show rawLapsJoin db
      = ("LEFT JOIN " ++ db ++ ".RAW.LAPS rl ON l.session_key = rl.session_key ")
        ++ "AND l.driver_number = rl.driver_number AND l.lap_number = rl.lap_number" from rfl]
  rw [String.data_append]
  rw [List.getLast?_append_of_ne_nil _ (by decide)]
  decide

theorem rawLapsJoin_ne_driverJoin (db : String) : rawLapsJoin db ≠ driverJoin := by
  intro h
  have hh : (rawLapsJoin db).data.head? = driverJoin.data.head? := by rw [h]
  rw [rawLapsJoin_head db] at hh
  have hj : driverJoin.data.head? = some 'J' := rfl
  rw [hj] at hh
  exact absurd hh (by decide)

theorem rawLapsJoin_ne_raceResultsJoin (db : String) : rawLapsJoin db ≠ raceResultsJoin := by
  intro h
  have hh : (rawLapsJoin db).data.getLast? = raceResultsJoin.data.getLast? := by rw [h]
  rw [rawLapsJoin_last db] at hh
  have hy : raceResultsJoin.data.getLast? = some 'y' := by decide
  rw [hy] at hh
  exact absurd hh (by decide)

theorem driverJoin_ne_raceResultsJoin : driverJoin ≠ raceResultsJoin := by decide

theorem mem_buildJoinClauses (db : String) (metrics : List String) (needs : Bool) (j : String) :
    j ∈ buildJoinClauses db metrics needs
      ↔ (j = driverJoin ∨ (needs = true ∧ j = rawLapsJoin db)
          ∨ (positionMetrics.any (fun m => metrics.contains m) = true ∧ j = raceResultsJoin)) := by
  by_cases hp : positionMetrics.any (fun m => metrics.contains m) = true <;>
    cases needs <;> simp [buildJoinClauses, hp]

theorem positionMetrics_any_iff (metrics : List String) :
    (positionMetrics.any (fun m => metrics.contains m) = true)
      ↔ ("Average Position" ∈ metrics ∨ "Best Position" ∈ metrics
          ∨ "Worst Position" ∈ metrics) := by
  simp [positionMetrics]

theorem contains_or_iff (metrics dimensions : List String) :
    (metrics.contains "Pit Stop Laps" || dimensions.contains "Laps") = true
      ↔ ("Pit Stop Laps" ∈ metrics ∨ "Laps" ∈ dimensions) := by
  simp

/-- The SQL built for metric `Average Lap Time`, dimension `Driver`,
season 2024, limit 100, database `APEXML_DEV`. -/
def avgLapTimeDriverQuery : String :=
  "\n        SELECT\n            d.full_name as driver,\n            AVG(l.lap_duration) as avg_lap_time\n        FROM fct_lap_times l\n        JOIN dim_drivers d ON l.driver_number = d.driver_number\n        WHERE l.lap_duration > 0 AND l.year = 2024\n        GROUP BY d.full_name\n        ORDER BY avg_lap_time\n        LIMIT 100\n        "

set_option maxRecDepth 8192 in
/-- C10: conditional join inclusion.  In the join-clause list the builder
splices into every query: the race-results join appears iff a position
metric (`Average/Best/Worst Position`) is selected, and the raw-laps join
appears iff the `Pit Stop Laps` metric or the `Laps` dimension is selected
(the flag the builder passes is exactly that disjunction); in particular
the query built for only `Average Lap Time` with dimension `Driver`
contains neither join as a substring. -/
theorem c10_conditional_joins (database : String) (metrics dimensions : List String) :
    (raceResultsJoin ∈ buildJoinClauses database metrics
        (metrics.contains "Pit Stop Laps" || dimensions.contains "Laps")
      ↔ ("Average Position" ∈ metrics ∨ "Best Position" ∈ metrics
          ∨ "Worst Position" ∈ metrics))
    ∧ (rawLapsJoin database ∈ buildJoinClauses database metrics
        (metrics.contains "Pit Stop Laps" || dimensions.contains "Laps")
      ↔ ("Pit Stop Laps" ∈ metrics ∨ "Laps" ∈ dimensions))
    ∧ buildAnalyticsQuery "APEXML_DEV" ["Average Lap Time"] ["Driver"]
        ⟨[2024], [], [], []⟩ 100 = Except.ok avgLapTimeDriverQuery
    ∧ infixOf (rawLapsJoin "APEXML_DEV").data avgLapTimeDriverQuery.data = false
    ∧ infixOf raceResultsJoin.data avgLapTimeDriverQuery.data = false
    ∧ infixOf driverJoin.data avgLapTimeDriverQuery.data = true := by
  refine ⟨?_, ?_, ?_, ?_, ?_, ?_⟩
  · rw [mem_buildJoinClauses]
    constructor
    · rintro (h | ⟨_, h⟩ | ⟨hp, _⟩)
      · exact absurd h.symm driverJoin_ne_raceResultsJoin
      · exact absurd h.symm (rawLapsJoin_ne_raceResultsJoin database)
      · exact (positionMetrics_any_iff metrics).mp hp
    · intro h
      exact Or.inr (Or.inr ⟨(positionMetrics_any_iff metrics).mpr h, rfl⟩)
  · rw [mem_buildJoinClauses]
    constructor
    · rintro (h | ⟨hn, _⟩ | ⟨_, h⟩)
      · exact absurd h (rawLapsJoin_ne_driverJoin database)
      · exact (contains_or_iff metrics dimensions).mp hn
      · exact absurd h (rawLapsJoin_ne_raceResultsJoin database)
    · intro h
      exact Or.inr (Or.inl ⟨(contains_or_iff metrics dimensions).mpr h, rfl⟩)
  · rfl
  · decide
  · decide
  · decide

end ApexML
